import Mathlib

noncomputable section

/-!
A verification development for the SDF renderer in src/main.rs.
Machine f32 arithmetic is idealised as exact real arithmetic; decimal
literals denote their exact rational values.  The thread-local random
generator is modelled as an explicit stream of unit-sphere samples, one
sample consumed per bounce.  The unbounded march loop is given explicit
fuel; running out of fuel is reported as a distinguished outcome that the
source program (which would keep looping) can never produce, and the
out-of-bounds panic on an empty scene is modelled as a failure value.
-/

def WIDTH : ℕ := 320

def HEIGHT : ℕ := 160

def MAX_DEPTH : ℝ := 50.0

def INV_WIDTH : ℝ := 1 / (WIDTH : ℝ)

def INV_HEIGHT : ℝ := 1 / (HEIGHT : ℝ)

def MIN_DISTANCE : ℝ := 0.001

def SAMPLES : ℕ := 10

/-- f32 maximum value, the initial accumulator of the per-shape minimum
in the march loop (FLOAT MAX in the source). -/
def floatMax : ℝ := (2 ^ 24 - 1) * 2 ^ 104

@[ext]
structure Vec3 where
  x : ℝ
  y : ℝ
  z : ℝ

def Vec3.zero : Vec3 := ⟨0, 0, 0⟩

def Vec3.one : Vec3 := ⟨1, 1, 1⟩

def Vec3.splat (a : ℝ) : Vec3 := ⟨a, a, a⟩

def Vec3.add (v w : Vec3) : Vec3 := ⟨v.x + w.x, v.y + w.y, v.z + w.z⟩

def Vec3.sub (v w : Vec3) : Vec3 := ⟨v.x - w.x, v.y - w.y, v.z - w.z⟩

def Vec3.smul (a : ℝ) (v : Vec3) : Vec3 := ⟨a * v.x, a * v.y, a * v.z⟩

instance : Add Vec3 := ⟨Vec3.add⟩

instance : Sub Vec3 := ⟨Vec3.sub⟩

instance : SMul ℝ Vec3 := ⟨Vec3.smul⟩

def Vec3.dot (v w : Vec3) : ℝ := v.x * w.x + v.y * w.y + v.z * w.z

def Vec3.lengthSq (v : Vec3) : ℝ := Vec3.dot v v

def Vec3.length (v : Vec3) : ℝ := Real.sqrt (Vec3.lengthSq v)

def Vec3.abs (v : Vec3) : Vec3 := ⟨|v.x|, |v.y|, |v.z|⟩

/-- Componentwise maximum (glam Vec3A max). -/
def Vec3.cmax (v w : Vec3) : Vec3 := ⟨max v.x w.x, max v.y w.y, max v.z w.z⟩

/-- Maximum component (glam Vec3A max element). -/
def Vec3.maxElement (v : Vec3) : ℝ := max v.x (max v.y v.z)

/-- glam normalize: the vector scaled by the reciprocal of its length. -/
def Vec3.normalize (v : Vec3) : Vec3 := (1 / Vec3.length v) • v

structure Ray where
  position : Vec3
  direction : Vec3

/-- The closed set of distance fields the program builds: Sphere, Cube and
the two generic combinators And and Not (runtime trait objects in the
source, a sum type here). -/
inductive Shape where
  | sphere (center : Vec3) (radius : ℝ)
  | cube (center : Vec3) (size : ℝ)
  | and (t u : Shape)
  | not (t u : Shape)

/-- The Sdf distance method of each implementation in the source. -/
def Shape.distance : Shape → Vec3 → ℝ
  | Shape.sphere center radius, point => Vec3.length (point - center) - radius
  | Shape.cube center size, point =>
      let q := (point - center).abs - Vec3.splat size
      Vec3.length (Vec3.cmax q Vec3.zero) + min (Vec3.maxElement q) 0
  | Shape.and t u, point => max (t.distance point) (u.distance point)
  | Shape.not t u, point => max (t.distance point) (-(u.distance point))

def VEC3_EPSILON_X : Vec3 := ⟨MIN_DISTANCE, 0, 0⟩

def VEC3_EPSILON_Y : Vec3 := ⟨0, MIN_DISTANCE, 0⟩

def VEC3_EPSILON_Z : Vec3 := ⟨0, 0, MIN_DISTANCE⟩

/-- The default normal method of the Sdf trait: central finite differences
along each axis, normalized. -/
def Shape.normal (s : Shape) (point : Vec3) : Vec3 :=
  Vec3.normalize
    ⟨s.distance (point + VEC3_EPSILON_X) - s.distance (point - VEC3_EPSILON_X),
     s.distance (point + VEC3_EPSILON_Y) - s.distance (point - VEC3_EPSILON_Y),
     s.distance (point + VEC3_EPSILON_Z) - s.distance (point - VEC3_EPSILON_Z)⟩

/-- The scene minimum computed by the for-loop at the top of each march
iteration: accumulator starts at FLOAT MAX and is replaced whenever a
shape reports a strictly smaller distance. -/
def minDist (scene : List Shape) (p : Vec3) : ℝ :=
  scene.foldl
    (fun acc s => if Shape.distance s p < acc then Shape.distance s p else acc)
    floatMax

/-- Outcome of one march: a hit at the advanced point, a miss (distance
exceeded the travel budget), or fuel exhaustion (the source loop would
still be running). -/
inductive MarchResult where
  | hit (p : Vec3)
  | miss
  | fuelOut

/-- The march loop of trace ray: break to Miss when the minimum distance
exceeds MAX DEPTH, otherwise advance the point by the minimum distance
along the ray direction and report a Hit when the minimum distance is
below MIN DISTANCE. -/
def marchLoop : ℕ → List Shape → Vec3 → Vec3 → MarchResult
  | 0, _, _, _ => MarchResult.fuelOut
  | n + 1, scene, dir, p =>
      let md := minDist scene p
      if md > MAX_DEPTH then MarchResult.miss
      else
        let p2 := p + md • dir
        if md < MIN_DISTANCE then MarchResult.hit p2
        else marchLoop n scene dir p2

/-- The miss branch of trace ray: vertical white-to-sky-blue gradient on
the normalized ray direction. -/
def skyColor (direction : Vec3) : Vec3 :=
  let unit_direction := Vec3.normalize direction
  let t := 0.5 * (unit_direction.y + 1.0)
  (1.0 - t) • Vec3.one + t • (⟨0.5, 0.7, 1.0⟩ : Vec3)

/-- Direction of the bounce ray built at a hit: target minus hit point,
where target = hit point + normal + random point in the unit sphere. -/
def scatterDirection (p normal rand : Vec3) : Vec3 := (p + normal + rand) - p

/-- Direction of a primary camera ray in main. -/
def primaryRayDirection (u v : ℝ) : Vec3 := Vec3.normalize ⟨u, v, 1.0⟩

/-- trace ray.  `rng` is the stream of results of random in unit sphere,
`ri` the index of the next unconsumed sample, `mfuel` the march-loop fuel.
none models behaviour the shallow embedding cannot produce a value for:
march-loop fuel exhaustion, or the index-out-of-bounds panic of
shapes[0] on an empty scene. -/
def traceRay (scene : List Shape) (rng : ℕ → Vec3) (mfuel : ℕ)
    (ray : Ray) (depth : ℕ) (ri : ℕ) : Option Vec3 :=
  if _h5 : 5 < depth then some Vec3.zero
  else
    match marchLoop mfuel scene ray.direction ray.position with
    | MarchResult.fuelOut => none
    | MarchResult.miss => some (skyColor ray.direction)
    | MarchResult.hit p =>
        match scene with
        | [] => none
        | s0 :: _ =>
            (traceRay scene rng mfuel
                ⟨p, scatterDirection p (Shape.normal s0 p) (rng ri)⟩
                (depth + 1) (ri + 1)).map (fun c => (0.5 : ℝ) • c)
termination_by 6 - depth
decreasing_by omega

/-- The saturating Rust cast from f32 to u32 used in to color. -/
def rustCastU32 (r : ℝ) : ℕ :=
  if r ≤ 0 then 0 else min ⌊r⌋₊ (2 ^ 32 - 1)

/-- to color: multiply each channel by 255.99, cast to u32, pack as
0xRRGGBB with 32-bit shifts. -/
def to_color (col : Vec3) : ℕ :=
  let ir := rustCastU32 (255.99 * col.x)
  let ig := rustCastU32 (255.99 * col.y)
  let ib := rustCastU32 (255.99 * col.z)
  (((ir <<< 16) % 2 ^ 32) ||| ((ig <<< 8) % 2 ^ 32)) ||| ib

/-- Modelled from the spec: the claimed quantizer, clamp(255.99 * channel,
0, 255) truncated to an integer byte. -/
def claimByte (c : ℝ) : ℕ := ⌊min (max (255.99 * c) 0) 255⌋₊

/-- Modelled from the spec: the claimed packing, one byte per channel with
no spill between channels. -/
def claimPack (col : Vec3) : ℕ :=
  claimByte col.x * 2 ^ 16 + claimByte col.y * 2 ^ 8 + claimByte col.z

/-- aspect ratio constant of main. -/
def aspect : ℝ := (WIDTH : ℝ) / (HEIGHT : ℝ)

/-- The horizontal sample coordinate the source actually feeds to the ray
for pixel column px and jitter jx: the pixel centre is converted to
normalized device coordinates and scaled by the aspect ratio first, and
the jitter is added afterwards. -/
def codeSampleU (px : ℕ) (jx : ℝ) : ℝ :=
  ((px : ℝ) * (INV_WIDTH * 2.0) - 1.0) * aspect + jx

/-- The vertical sample coordinate the source actually computes. -/
def codeSampleV (py : ℕ) (jy : ℝ) : ℝ :=
  ((py : ℝ) * (INV_HEIGHT * 2.0) - 1.0) + jy

/-- Modelled from the spec: the claimed horizontal sample coordinate, with
the jitter added to the integer pixel coordinate before the conversion to
normalized device coordinates. -/
def claimSampleU (px : ℕ) (jx : ℝ) : ℝ :=
  (((px : ℝ) + jx) * (INV_WIDTH * 2.0) - 1.0) * aspect

@[simp]
theorem Vec3.x_mk (a b c : ℝ) : (⟨a, b, c⟩ : Vec3).x = a := rfl

@[simp]
theorem Vec3.y_mk (a b c : ℝ) : (⟨a, b, c⟩ : Vec3).y = b := rfl

@[simp]
theorem Vec3.z_mk (a b c : ℝ) : (⟨a, b, c⟩ : Vec3).z = c := rfl

@[simp]
theorem Vec3.add_def (v w : Vec3) : v + w = ⟨v.x + w.x, v.y + w.y, v.z + w.z⟩ := rfl

@[simp]
theorem Vec3.sub_def (v w : Vec3) : v - w = ⟨v.x - w.x, v.y - w.y, v.z - w.z⟩ := rfl

@[simp]
theorem Vec3.smul_def (a : ℝ) (v : Vec3) : a • v = ⟨a * v.x, a * v.y, a * v.z⟩ := rfl

theorem Vec3.lengthSq_nonneg (v : Vec3) : 0 ≤ v.lengthSq := by
  have hx := mul_self_nonneg v.x
  have hy := mul_self_nonneg v.y
  have hz := mul_self_nonneg v.z
  simp only [Vec3.lengthSq, Vec3.dot]
  linarith

theorem Vec3.length_nonneg (v : Vec3) : 0 ≤ v.length := Real.sqrt_nonneg _

theorem Vec3.length_smul (a : ℝ) (v : Vec3) : (a • v).length = |a| * v.length := by
  simp only [Vec3.length, Vec3.lengthSq, Vec3.dot, Vec3.smul_def]
  have h : a * v.x * (a * v.x) + a * v.y * (a * v.y) + a * v.z * (a * v.z)
      = a ^ 2 * (v.x * v.x + v.y * v.y + v.z * v.z) := by ring
  rw [h, Real.sqrt_mul (sq_nonneg a), Real.sqrt_sq_eq_abs]

theorem Vec3.normalize_length (v : Vec3) (h : 0 < v.lengthSq) :
    (Vec3.normalize v).length = 1 := by
  have hL : 0 < v.length := Real.sqrt_pos.mpr h
  rw [Vec3.normalize, Vec3.length_smul, abs_of_pos (by positivity)]
  field_simp

theorem marchLoop_one (scene : List Shape) (dir p : Vec3) :
    marchLoop 1 scene dir p =
      if minDist scene p > MAX_DEPTH then MarchResult.miss
      else if minDist scene p < MIN_DISTANCE then
        MarchResult.hit (p + minDist scene p • dir)
      else MarchResult.fuelOut := rfl

theorem marchLoop_succ (n : ℕ) (scene : List Shape) (dir p : Vec3) :
    marchLoop (n + 1) scene dir p =
      if minDist scene p > MAX_DEPTH then MarchResult.miss
      else if minDist scene p < MIN_DISTANCE then
        MarchResult.hit (p + minDist scene p • dir)
      else marchLoop n scene dir (p + minDist scene p • dir) := rfl

theorem minDist_nil (p : Vec3) : minDist [] p = floatMax := rfl

theorem floatMax_gt_max_depth : MAX_DEPTH < floatMax := by
  norm_num [MAX_DEPTH, floatMax]

theorem marchLoop_nil (n : ℕ) (dir p : Vec3) :
    marchLoop (n + 1) [] dir p = MarchResult.miss := by
  rw [marchLoop_succ, minDist_nil, if_pos floatMax_gt_max_depth]

theorem traceRay_unfold (scene : List Shape) (rng : ℕ → Vec3) (mfuel : ℕ)
    (ray : Ray) (depth ri : ℕ) :
    traceRay scene rng mfuel ray depth ri =
      if 5 < depth then some Vec3.zero
      else
        match marchLoop mfuel scene ray.direction ray.position with
        | MarchResult.fuelOut => none
        | MarchResult.miss => some (skyColor ray.direction)
        | MarchResult.hit p =>
            match scene with
            | [] => none
            | s0 :: _ =>
                (traceRay scene rng mfuel
                    ⟨p, scatterDirection p (Shape.normal s0 p) (rng ri)⟩
                    (depth + 1) (ri + 1)).map (fun c => (0.5 : ℝ) • c) := by
  rw [traceRay]
  rw [dite_eq_ite]

theorem skyColor_up : skyColor ⟨0, 1, 0⟩ = (⟨0.5, 0.7, 1.0⟩ : Vec3) := by
  have h1 : Vec3.length ⟨0, 1, 0⟩ = 1 := by
    simp only [Vec3.length, Vec3.lengthSq, Vec3.dot]
    norm_num
  simp only [skyColor, Vec3.normalize, h1, Vec3.smul_def, Vec3.add_def, Vec3.one,
    Vec3.mk.injEq]
  norm_num

theorem skyColor_down : skyColor ⟨0, -1, 0⟩ = Vec3.one := by
  have h1 : Vec3.length ⟨0, -1, 0⟩ = 1 := by
    simp only [Vec3.length, Vec3.lengthSq, Vec3.dot]
    norm_num
  simp only [skyColor, Vec3.normalize, h1, Vec3.smul_def, Vec3.add_def, Vec3.one,
    Vec3.mk.injEq]
  norm_num

theorem scatterDir_not_unit :
    Vec3.length (scatterDirection Vec3.zero ⟨0, 1, 0⟩ ⟨0.5, 0, 0⟩) ≠ 1 := by
  simp only [scatterDirection, Vec3.zero, Vec3.add_def, Vec3.sub_def, Vec3.length,
    Vec3.lengthSq, Vec3.dot]
  intro hcon
  rw [Real.sqrt_eq_one] at hcon
  norm_num at hcon

/-- Claim C1, counterexample: a miss in the exact upward direction returns
the sky-blue constant, not pure white as claimed. -/
theorem C1_sky_counterexample :
    skyColor ⟨0, 1, 0⟩ = (⟨0.5, 0.7, 1.0⟩ : Vec3) ∧ skyColor ⟨0, 1, 0⟩ ≠ Vec3.one := by
  refine ⟨skyColor_up, ?_⟩
  rw [skyColor_up]
  simp only [Vec3.one, ne_eq, Vec3.mk.injEq, not_and]
  norm_num

/-- Claim C1, amended: with t = 0.5 * (direction.y + 1) and
color = (1 - t) * white + t * skyblue, the sky gradient is exactly the
sky-blue constant (0.5, 0.7, 1.0) at direction (0, 1, 0) and pure white
(1, 1, 1) at direction (0, -1, 0). -/
theorem C1_sky_amended :
    skyColor ⟨0, 1, 0⟩ = (⟨0.5, 0.7, 1.0⟩ : Vec3) ∧ skyColor ⟨0, -1, 0⟩ = Vec3.one :=
  ⟨skyColor_up, skyColor_down⟩

/-- Claim C5, counterexample: at a hit with unit normal (0, 1, 0) and the
valid unit-sphere sample (0.5, 0, 0), the bounce ray handed to the marcher
has direction of length sqrt (5/4), not 1. -/
theorem C5_unit_dir_counterexample :
    Vec3.lengthSq ⟨0.5, 0, 0⟩ < 1 ∧
    Vec3.length ⟨0, 1, 0⟩ = 1 ∧
    Vec3.length (scatterDirection Vec3.zero ⟨0, 1, 0⟩ ⟨0.5, 0, 0⟩) ≠ 1 := by
  refine ⟨?_, ?_, scatterDir_not_unit⟩
  · simp only [Vec3.lengthSq, Vec3.dot]
    norm_num
  · simp only [Vec3.length, Vec3.lengthSq, Vec3.dot]
    norm_num

/-- Claim C5, amended: the primary camera rays do have unit-length
direction (they are normalized on construction), but the recursive bounce
rays do not: their direction is normal + unit-sphere sample, unnormalized,
and in general of length other than 1. -/
theorem C5_unit_dir_amended :
    (∀ u v : ℝ, (primaryRayDirection u v).length = 1) ∧
    Vec3.length (scatterDirection Vec3.zero ⟨0, 1, 0⟩ ⟨0.5, 0, 0⟩) ≠ 1 := by
  refine ⟨fun u v => ?_, scatterDir_not_unit⟩
  apply Vec3.normalize_length
  simp only [Vec3.lengthSq, Vec3.dot]
  nlinarith [mul_self_nonneg u, mul_self_nonneg v]

/-- Claim C6: at recursion depth exceeding the bounce maximum of 5, the
integrator returns black immediately, for every scene (hence without
evaluating any distance field), every ray, every random stream and even
zero march fuel. -/
theorem C6_max_depth_black (scene : List Shape) (rng : ℕ → Vec3) (mfuel : ℕ)
    (ray : Ray) (depth ri : ℕ) (h : 5 < depth) :
    traceRay scene rng mfuel ray depth ri = some Vec3.zero := by
  rw [traceRay_unfold, if_pos h]

/-- Witness for claim C6 at depth 6. -/
theorem C6_max_depth_black_witness :
    5 < 6 ∧
    traceRay [] (fun _ => Vec3.zero) 0 ⟨Vec3.zero, Vec3.zero⟩ 6 0 = some Vec3.zero :=
  ⟨by norm_num,
   C6_max_depth_black [] (fun _ => Vec3.zero) 0 ⟨Vec3.zero, Vec3.zero⟩ 6 0 (by norm_num)⟩

/-- Claim C7: the sphere signed distance is exactly the euclidean distance
from the point to the center minus the radius. -/
theorem C7_sphere_distance_exact (c p : Vec3) (r : ℝ) :
    Shape.distance (Shape.sphere c r) p =
      Real.sqrt ((p.x - c.x) ^ 2 + (p.y - c.y) ^ 2 + (p.z - c.z) ^ 2) - r := by
  simp only [Shape.distance, Vec3.length, Vec3.lengthSq, Vec3.dot, Vec3.sub_def]
  have h : (p.x - c.x) * (p.x - c.x) + (p.y - c.y) * (p.y - c.y)
      + (p.z - c.z) * (p.z - c.z)
      = (p.x - c.x) ^ 2 + (p.y - c.y) ^ 2 + (p.z - c.z) ^ 2 := by ring
  rw [h]

/-- Claim C2, counterexample: with the unit sphere at the origin, a ray
starting at (1, 0, 0) on the surface and pointing radially away produces
an immediate Hit after one march iteration, not a Miss: the minimum
distance at the origin point is 0, below MIN DISTANCE. -/
theorem C2_surface_counterexample :
    marchLoop 1 [Shape.sphere Vec3.zero 1] ⟨1, 0, 0⟩ ⟨1, 0, 0⟩ =
      MarchResult.hit ⟨1, 0, 0⟩ := by
  have hd : Shape.distance (Shape.sphere Vec3.zero 1) ⟨1, 0, 0⟩ = 0 := by
    simp only [Shape.distance, Vec3.length, Vec3.lengthSq, Vec3.dot, Vec3.zero,
      Vec3.sub_def]
    norm_num
  have hmin : minDist [Shape.sphere Vec3.zero 1] ⟨1, 0, 0⟩ = 0 := by
    simp only [minDist, List.foldl_cons, List.foldl_nil, hd]
    rw [if_pos (by norm_num [floatMax] : (0 : ℝ) < floatMax)]
  rw [marchLoop_one, hmin]
  rw [if_neg (by norm_num [MAX_DEPTH])]
  rw [if_pos (by norm_num [MIN_DISTANCE])]
  congr 1
  ext <;> simp

/-- Claim C2, amended: marching a ray whose origin lies exactly on the
sphere surface produces an immediate Hit at the origin point in the first
iteration (for any direction, in particular pointing radially away):
the signed distance there is 0, which is below MIN DISTANCE. -/
theorem C2_surface_amended (c p dir : Vec3) (r : ℝ) (n : ℕ)
    (h : Vec3.length (p - c) = r) :
    marchLoop (n + 1) [Shape.sphere c r] dir p = MarchResult.hit p := by
  have hd : Shape.distance (Shape.sphere c r) p = 0 := by
    simp only [Shape.distance, h, sub_self]
  have hmin : minDist [Shape.sphere c r] p = 0 := by
    simp only [minDist, List.foldl_cons, List.foldl_nil, hd]
    rw [if_pos (by norm_num [floatMax] : (0 : ℝ) < floatMax)]
  rw [marchLoop_succ, hmin]
  rw [if_neg (by norm_num [MAX_DEPTH])]
  rw [if_pos (by norm_num [MIN_DISTANCE])]
  congr 1
  ext <;> simp

/-- Witness for the amended claim C2 on the unit sphere at the origin. -/
theorem C2_surface_amended_witness :
    Vec3.length ((⟨1, 0, 0⟩ : Vec3) - Vec3.zero) = 1 ∧
    marchLoop 1 [Shape.sphere Vec3.zero 1] ⟨1, 0, 0⟩ ⟨1, 0, 0⟩ =
      MarchResult.hit ⟨1, 0, 0⟩ := by
  have h : Vec3.length ((⟨1, 0, 0⟩ : Vec3) - Vec3.zero) = 1 := by
    simp only [Vec3.length, Vec3.lengthSq, Vec3.dot, Vec3.zero, Vec3.sub_def]
    norm_num
  exact ⟨h, C2_surface_amended Vec3.zero ⟨1, 0, 0⟩ ⟨1, 0, 0⟩ 1 0 h⟩

/-- Claim C10: on the empty scene the march misses in a single iteration
(the minimum distance is the f32 maximum, far above the travel budget),
the integrator returns the sky gradient for every ray at depth at most 5,
and no out-of-bounds field access happens (the result is some, never the
failure value that models the panic). -/
theorem C10_empty_scene_sky (rng : ℕ → Vec3) (ray : Ray) (depth ri mfuel : ℕ)
    (hd : depth ≤ 5) (hf : 1 ≤ mfuel) :
    marchLoop 1 [] ray.direction ray.position = MarchResult.miss ∧
    traceRay [] rng mfuel ray depth ri = some (skyColor ray.direction) := by
  constructor
  · exact marchLoop_nil 0 ray.direction ray.position
  · obtain ⟨k, rfl⟩ := Nat.exists_eq_add_of_le hf
    rw [traceRay_unfold, if_neg (by omega)]
    rw [show 1 + k = k + 1 from Nat.add_comm 1 k, marchLoop_nil]

/-- Witness for claim C10 on a concrete camera ray. -/
theorem C10_empty_scene_sky_witness :
    ((0 : ℕ) ≤ 5 ∧ (1 : ℕ) ≤ 1) ∧
    traceRay [] (fun _ => Vec3.zero) 1 ⟨Vec3.zero, ⟨0, 0, 1⟩⟩ 0 0 =
      some (skyColor ⟨0, 0, 1⟩) := by
  refine ⟨⟨by norm_num, le_refl 1⟩, ?_⟩
  exact (C10_empty_scene_sky (fun _ => Vec3.zero) ⟨Vec3.zero, ⟨0, 0, 1⟩⟩ 0 0 1
    (by norm_num) (le_refl 1)).2

/-- Claim C9: whenever the march reports a hit on a non-empty scene, the
integrator computes the surface normal of the bounce from the first field
of the scene list, regardless of which field produced the minimum distance
at the hit point. -/
theorem C9_normal_from_first_field (s0 : Shape) (rest : List Shape)
    (rng : ℕ → Vec3) (mfuel : ℕ) (ray : Ray) (depth ri : ℕ) (p : Vec3)
    (hd : depth ≤ 5)
    (hm : marchLoop mfuel (s0 :: rest) ray.direction ray.position =
      MarchResult.hit p) :
    traceRay (s0 :: rest) rng mfuel ray depth ri =
      (traceRay (s0 :: rest) rng mfuel
          ⟨p, scatterDirection p (Shape.normal s0 p) (rng ri)⟩
          (depth + 1) (ri + 1)).map (fun c => (0.5 : ℝ) • c) := by
  rw [traceRay_unfold, if_neg (by omega), hm]

/-- Witness for claim C9: a two-sphere scene where the SECOND sphere is
the one hit (its distance at the origin point is 0, while the first field
is 3 away), yet the bounce normal is taken from the first field. -/
theorem C9_normal_from_first_field_witness :
    ((0 : ℕ) ≤ 5 ∧
      marchLoop 1 [Shape.sphere ⟨0, 0, 6⟩ 1, Shape.sphere ⟨0, 0, 3⟩ 1]
        ⟨0, 0, 1⟩ ⟨0, 0, 2⟩ = MarchResult.hit ⟨0, 0, 2⟩) ∧
    traceRay [Shape.sphere ⟨0, 0, 6⟩ 1, Shape.sphere ⟨0, 0, 3⟩ 1]
        (fun _ => Vec3.zero) 1 ⟨⟨0, 0, 2⟩, ⟨0, 0, 1⟩⟩ 0 0 =
      (traceRay [Shape.sphere ⟨0, 0, 6⟩ 1, Shape.sphere ⟨0, 0, 3⟩ 1]
          (fun _ => Vec3.zero) 1
          ⟨⟨0, 0, 2⟩, scatterDirection ⟨0, 0, 2⟩
              (Shape.normal (Shape.sphere ⟨0, 0, 6⟩ 1) ⟨0, 0, 2⟩) Vec3.zero⟩
          1 1).map (fun c => (0.5 : ℝ) • c) := by
  have h16 : Real.sqrt 16 = 4 := by
    rw [show (16 : ℝ) = 4 ^ 2 by norm_num, Real.sqrt_sq (by norm_num : (0 : ℝ) ≤ 4)]
  have hd0 : Shape.distance (Shape.sphere ⟨0, 0, 6⟩ 1) ⟨0, 0, 2⟩ = 3 := by
    simp only [Shape.distance, Vec3.length, Vec3.lengthSq, Vec3.dot, Vec3.sub_def]
    norm_num [h16]
  have hd1 : Shape.distance (Shape.sphere ⟨0, 0, 3⟩ 1) ⟨0, 0, 2⟩ = 0 := by
    simp only [Shape.distance, Vec3.length, Vec3.lengthSq, Vec3.dot, Vec3.sub_def]
    norm_num
  have hmin : minDist [Shape.sphere ⟨0, 0, 6⟩ 1, Shape.sphere ⟨0, 0, 3⟩ 1]
      ⟨0, 0, 2⟩ = 0 := by
    simp only [minDist, List.foldl_cons, List.foldl_nil, hd0, hd1]
    rw [if_pos (by norm_num [floatMax] : (3 : ℝ) < floatMax)]
    rw [if_pos (by norm_num : (0 : ℝ) < 3)]
  have hm : marchLoop 1 [Shape.sphere ⟨0, 0, 6⟩ 1, Shape.sphere ⟨0, 0, 3⟩ 1]
      ⟨0, 0, 1⟩ ⟨0, 0, 2⟩ = MarchResult.hit ⟨0, 0, 2⟩ := by
    rw [marchLoop_one, hmin]
    rw [if_neg (by norm_num [MAX_DEPTH])]
    rw [if_pos (by norm_num [MIN_DISTANCE])]
    congr 1
    ext <;> simp
  exact ⟨⟨by norm_num, hm⟩,
    C9_normal_from_first_field (Shape.sphere ⟨0, 0, 6⟩ 1) [Shape.sphere ⟨0, 0, 3⟩ 1]
      (fun _ => Vec3.zero) 1 ⟨⟨0, 0, 2⟩, ⟨0, 0, 1⟩⟩ 0 0 ⟨0, 0, 2⟩ (by norm_num) hm⟩

theorem cube_distance_eval (c p : Vec3) (s : ℝ) :
    Shape.distance (Shape.cube c s) p =
      Real.sqrt (max (|p.x - c.x| - s) 0 ^ 2 + max (|p.y - c.y| - s) 0 ^ 2
          + max (|p.z - c.z| - s) 0 ^ 2)
        + min (max (|p.x - c.x| - s) (max (|p.y - c.y| - s) (|p.z - c.z| - s))) 0 := by
  simp only [Shape.distance, Vec3.length, Vec3.lengthSq, Vec3.dot, Vec3.sub_def,
    Vec3.abs, Vec3.splat, Vec3.cmax, Vec3.zero, Vec3.maxElement]
  have h : max (|p.x - c.x| - s) 0 * max (|p.x - c.x| - s) 0
        + max (|p.y - c.y| - s) 0 * max (|p.y - c.y| - s) 0
        + max (|p.z - c.z| - s) 0 * max (|p.z - c.z| - s) 0
      = max (|p.x - c.x| - s) 0 ^ 2 + max (|p.y - c.y| - s) 0 ^ 2
        + max (|p.z - c.z| - s) 0 ^ 2 := by ring
  rw [h]

/-- Claim C8: for a non-negative half-size, the cube distance is strictly
positive at points strictly outside the half-extent along every axis,
strictly negative at points strictly inside along every axis, and exactly
zero on the boundary (largest axis deviation equal to the half-size). -/
theorem C8_cube_distance_sign (c p : Vec3) (s : ℝ) (_hs : 0 ≤ s) :
    ((s < |p.x - c.x| ∧ s < |p.y - c.y| ∧ s < |p.z - c.z|) →
      0 < Shape.distance (Shape.cube c s) p) ∧
    ((|p.x - c.x| < s ∧ |p.y - c.y| < s ∧ |p.z - c.z| < s) →
      Shape.distance (Shape.cube c s) p < 0) ∧
    (max (|p.x - c.x|) (max (|p.y - c.y|) (|p.z - c.z|)) = s →
      Shape.distance (Shape.cube c s) p = 0) := by
  rw [cube_distance_eval]
  refine ⟨?_, ?_, ?_⟩
  · rintro ⟨h1, h2, h3⟩
    have ha : 0 < |p.x - c.x| - s := by linarith
    have hb : 0 < |p.y - c.y| - s := by linarith
    have hc : 0 < |p.z - c.z| - s := by linarith
    rw [max_eq_left ha.le, max_eq_left hb.le, max_eq_left hc.le]
    have hM : 0 < max (|p.x - c.x| - s) (max (|p.y - c.y| - s) (|p.z - c.z| - s)) :=
      lt_of_lt_of_le ha (le_max_left _ _)
    rw [min_eq_right hM.le]
    have hsum : 0 < (|p.x - c.x| - s) ^ 2 + (|p.y - c.y| - s) ^ 2
        + (|p.z - c.z| - s) ^ 2 := by
      have h1q := pow_pos ha 2
      have h2q := sq_nonneg (|p.y - c.y| - s)
      have h3q := sq_nonneg (|p.z - c.z| - s)
      linarith
    have := Real.sqrt_pos.mpr hsum
    linarith
  · rintro ⟨h1, h2, h3⟩
    have ha : |p.x - c.x| - s ≤ 0 := by linarith
    have hb : |p.y - c.y| - s ≤ 0 := by linarith
    have hc : |p.z - c.z| - s ≤ 0 := by linarith
    rw [max_eq_right ha, max_eq_right hb, max_eq_right hc]
    have hM : max (|p.x - c.x| - s) (max (|p.y - c.y| - s) (|p.z - c.z| - s)) < 0 :=
      max_lt (by linarith) (max_lt (by linarith) (by linarith))
    rw [min_eq_left hM.le]
    have hz : Real.sqrt ((0 : ℝ) ^ 2 + 0 ^ 2 + 0 ^ 2) = 0 := by
      norm_num
    rw [hz]
    linarith
  · intro hb3
    have hx : |p.x - c.x| - s ≤ 0 := by
      have := (le_max_left (|p.x - c.x|) (max (|p.y - c.y|) (|p.z - c.z|))).trans hb3.le
      linarith
    have hy : |p.y - c.y| - s ≤ 0 := by
      have := ((le_max_left (|p.y - c.y|) (|p.z - c.z|)).trans
        (le_max_right (|p.x - c.x|) (max (|p.y - c.y|) (|p.z - c.z|)))).trans hb3.le
      linarith
    have hz3 : |p.z - c.z| - s ≤ 0 := by
      have := ((le_max_right (|p.y - c.y|) (|p.z - c.z|)).trans
        (le_max_right (|p.x - c.x|) (max (|p.y - c.y|) (|p.z - c.z|)))).trans hb3.le
      linarith
    rw [max_eq_right hx, max_eq_right hy, max_eq_right hz3]
    have hM : max (|p.x - c.x| - s) (max (|p.y - c.y| - s) (|p.z - c.z| - s)) = 0 := by
      rw [max_sub_sub_right, max_sub_sub_right, hb3, sub_self]
    rw [hM]
    norm_num

/-- Witness for claim C8: the unit cube at the origin with the outside
point (2, 3, 4). -/
theorem C8_cube_distance_sign_witness :
    ((0 : ℝ) ≤ 1 ∧ (1 : ℝ) < |(2 : ℝ) - 0| ∧ (1 : ℝ) < |(3 : ℝ) - 0|
      ∧ (1 : ℝ) < |(4 : ℝ) - 0|) ∧
    0 < Shape.distance (Shape.cube Vec3.zero 1) ⟨2, 3, 4⟩ := by
  refine ⟨⟨by norm_num, by norm_num, by norm_num, by norm_num⟩, ?_⟩
  exact (C8_cube_distance_sign Vec3.zero ⟨2, 3, 4⟩ 1 (by norm_num)).1
    ⟨by norm_num [Vec3.zero], by norm_num [Vec3.zero], by norm_num [Vec3.zero]⟩

/-- Claim C3, code-bug evidence: the source adds the per-sample jitter to
the ALREADY CONVERTED, aspect-scaled normalized device coordinate, so with
jitter 0.5 the sample coordinate of pixel column 0 is -3/2, while the
claimed jitter-before-conversion coordinate is 1/160 - 2, and the code
value escapes the footprint that pixel column 0 spans under the claimed
conversion (jitter ranging over [0, 1)). -/
theorem C3_jitter_code_eval :
    codeSampleU 0 (1 / 2) = -(3 / 2) ∧
    claimSampleU 0 (1 / 2) = 1 / 160 - 2 ∧
    codeSampleU 0 (1 / 2) ≠ claimSampleU 0 (1 / 2) ∧
    ¬ (claimSampleU 0 0 ≤ codeSampleU 0 (1 / 2) ∧
        codeSampleU 0 (1 / 2) < claimSampleU 0 1) := by
  norm_num [codeSampleU, claimSampleU, aspect, INV_WIDTH, WIDTH, HEIGHT]

theorem to_color_def (col : Vec3) :
    to_color col =
      (((rustCastU32 (255.99 * col.x) <<< 16) % 2 ^ 32) |||
        ((rustCastU32 (255.99 * col.y) <<< 8) % 2 ^ 32)) |||
        rustCastU32 (255.99 * col.z) := rfl

theorem claimPack_def (col : Vec3) :
    claimPack col =
      claimByte col.x * 2 ^ 16 + claimByte col.y * 2 ^ 8 + claimByte col.z := rfl

/-- Claim C4, code-bug evidence: to color does no clamping before the
saturating cast, so for the color (0, 2, 0) the green channel value is
511, whose ninth bit lands in the red byte of the packed pixel: the packed
value is 0x1FF00 = 130816, its red byte is 1, while the claimed
clamp-then-truncate quantizer packs 0xFF00 = 65280. -/
theorem C4_to_color_code_eval :
    to_color ⟨0, 2, 0⟩ = 130816 ∧
    to_color ⟨0, 2, 0⟩ / 2 ^ 16 % 2 ^ 8 = 1 ∧
    claimPack ⟨0, 2, 0⟩ = 65280 := by
  have hz : rustCastU32 (255.99 * (0 : ℝ)) = 0 := by
    rw [rustCastU32, if_pos (by norm_num)]
  have h2 : rustCastU32 (255.99 * (2 : ℝ)) = 511 := by
    rw [rustCastU32, if_neg (by norm_num)]
    have hf : ⌊(255.99 * (2 : ℝ))⌋₊ = 511 := by
      rw [Nat.floor_eq_iff (by norm_num)]
      norm_num
    rw [hf]
    omega
  have hb0 : claimByte 0 = 0 := by
    rw [claimByte]
    norm_num
  have hb2 : claimByte 2 = 255 := by
    rw [claimByte]
    rw [max_eq_left (by norm_num), min_eq_right (by norm_num)]
    norm_num
  rw [to_color_def, Vec3.x_mk, Vec3.y_mk, Vec3.z_mk, hz, h2]
  refine ⟨by decide, by decide, ?_⟩
  rw [claimPack_def, Vec3.x_mk, Vec3.y_mk, Vec3.z_mk, hb0, hb2]
  norm_num

end
